import Mathlib

/-!
Shallow embedding of the echo program of the repository
solana-bootcamp-lectures (crate echo-reference).  The four handler
bodies present under src/echo-reference/src/processor are translated
function by function: bytes are lists of naturals, an account is its
key together with its flags and data, and each handler returns the
outcome together with the final bytes of the buffer account and the
external calls it issued.  External collaborators (the system
program's create_account, the SPL token program's burn, and the
SHA256-based program address derivation) are modelled through the
interfaces the source uses: the derivation functions are parameters,
and the two outbound calls are recorded as events and assumed to
succeed, as the spec treats those services as out of scope.
-/

namespace EchoRef

/-- A 32-byte account address, modelled as its list of bytes. -/
abbrev Pubkey := List Nat

/-- Error surface of the program.  The EchoError variants are the ones
named by the handler sources (error.rs itself is not under src/); the
remaining variants are the ProgramError values produced by account
iteration (NotEnoughAccountKeys) and by foreign-account decoding
(InvalidAccountData, from the SPL token unpack routines). -/
inductive ProgramError where
  | NotEnoughAccountKeys
  | AccountMustBeWritable
  | MissingRequiredSignature
  | AccountNotInitialized
  | AccountHasNonZeroData
  | InvalidAccountAddress
  | InvalidProgramAddress
  | InvalidAccountData
  | InsufficientFunds
  | InvalidInstructionInput
deriving DecidableEq

/-- The slice of AccountInfo the handlers read: address, signer and
writability flags, and the account data bytes. -/
structure AccountInfo where
  key : Pubkey
  isSigner : Bool
  isWritable : Bool
  data : List Nat
deriving DecidableEq

/-- Little-endian bytes of a u64, as produced by to_le_bytes. -/
def u64ToLeBytes (n : Nat) : List Nat :=
  [n % 256, n / 256 % 256, n / 65536 % 256, n / 16777216 % 256,
   n / 4294967296 % 256, n / 1099511627776 % 256,
   n / 281474976710656 % 256, n / 72057594037927936 % 256]

/-- Little-endian decoding of a list of bytes to a natural number, as
performed by from_le_bytes and by the borsh u64 field decoder. -/
def leDecode (bs : List Nat) : Nat :=
  bs.foldr (fun b acc => b + 256 * acc) 0

/-- Modelled from the spec: state.rs is not under src/.  Header of an
authority-gated buffer, layout [buffer_seed: 8 bytes LE][bump_seed: 1
byte], 9 bytes total. -/
structure AuthorizedBufferHeader where
  buffer_seed : Nat
  bump_seed : Nat
deriving DecidableEq

/-- Modelled from the spec: state.rs is not under src/.  Header of a
priced buffer, layout [bump_seed: 1 byte][price: 8 bytes LE], 9 bytes
total. -/
structure VendingMachineBufferHeader where
  bump_seed : Nat
  price : Nat
deriving DecidableEq

/-- Modelled from the spec: AUTH_BUFF_HEADER_SIZE of state.rs. -/
def AUTH_BUFF_HEADER_SIZE : Nat := 9

/-- Modelled from the spec: VENDING_MACHINE_BUFF_HEADER_SIZE of state.rs. -/
def VENDING_MACHINE_BUFF_HEADER_SIZE : Nat := 9

/-- Modelled from the spec: borsh decoding of AuthorizedBufferHeader
from a slice, as used on buffer[..AUTH_BUFF_HEADER_SIZE]. -/
def authHeaderDecode (bs : List Nat) : Option AuthorizedBufferHeader :=
  if bs.length = 9 then some ⟨leDecode (bs.take 8), bs.getD 8 0⟩ else none

/-- Modelled from the spec: borsh encoding of VendingMachineBufferHeader
(try_to_vec), [bump_seed: 1 byte][price: 8 bytes LE]. -/
def vmHeaderEncode (h : VendingMachineBufferHeader) : List Nat :=
  h.bump_seed :: u64ToLeBytes h.price

/-- Modelled from the spec: borsh decoding of VendingMachineBufferHeader
from a slice, as used on buffer[..VENDING_MACHINE_BUFF_HEADER_SIZE]. -/
def vmHeaderDecode (bs : List Nat) : Option VendingMachineBufferHeader :=
  match bs with
  | b :: rest => if rest.length = 8 then some ⟨b, leDecode rest⟩ else none
  | [] => none

/-- The byte string "authority", first seed of the authority-gated
derivation. -/
def authoritySeed : List Nat := [97, 117, 116, 104, 111, 114, 105, 116, 121]

/-- The byte string "vending_machine", first seed of the priced
derivation. -/
def vendingMachineSeed : List Nat :=
  [118, 101, 110, 100, 105, 110, 103, 95, 109, 97, 99, 104, 105, 110, 101]

/-- The system program id (32 zero bytes). -/
def SYSTEM_PROGRAM_ID : Pubkey := List.replicate 32 0

/-- Pubkey.create_program_address as the handlers call it: a function
from the seed list and the program id to an address, or an error that
propagates unchanged.  The SHA256-based implementation lives outside
the repository, so the handlers are parametrised by it. -/
abbrev CreateProgramAddress := List (List Nat) → Pubkey → Except ProgramError Pubkey

/-- Pubkey.find_program_address: from the seed list (without bump) and
the program id to the canonical address and its bump. -/
abbrev FindProgramAddress := List (List Nat) → Pubkey → Pubkey × Nat

/-- Data of the first account of the list (the buffer account of every
handler), empty when the list is empty. -/
def firstData : List AccountInfo → List Nat
  | [] => []
  | a :: _ => a.data

/-- Outcome of a handler that mutates only the buffer account: the
error if any, and the final bytes of the buffer account. -/
structure EchoResult where
  err : Option ProgramError
  buffer : List Nat
deriving DecidableEq

namespace Echo

/-- processor/echo.rs process: parse (buffer must be writable), fail on
an empty buffer, fail on any non-zero byte, else copy
min(len(buffer), len(data)) bytes of data to the front of the buffer. -/
def process (_program_id : Pubkey) (accounts : List AccountInfo)
    (data : List Nat) : EchoResult :=
  match accounts with
  | [] => ⟨some .NotEnoughAccountKeys, []⟩
  | buf :: _ =>
    if buf.isWritable = false then ⟨some .AccountMustBeWritable, buf.data⟩
    else if buf.data.length = 0 then ⟨some .AccountNotInitialized, buf.data⟩
    else if buf.data.any (fun b => b ≠ 0) then
      ⟨some .AccountHasNonZeroData, buf.data⟩
    else
      ⟨none, data.take (min buf.data.length data.length)
        ++ buf.data.drop (min buf.data.length data.length)⟩

end Echo

namespace AuthorizedEcho

/-- processor/authorized_echo.rs process: parse (buffer writable,
authority signer), require at least the 9 header bytes, decode the
header, re-derive the address from ["authority", authority key,
buffer_seed LE, bump_seed] and compare it to the buffer key, then
overwrite the whole payload region with data, zero-padded. -/
def process (cpa : CreateProgramAddress) (program_id : Pubkey)
    (accounts : List AccountInfo) (data : List Nat) : EchoResult :=
  match accounts with
  | buf :: authority :: _ =>
    if buf.isWritable = false then ⟨some .AccountMustBeWritable, buf.data⟩
    else if authority.isSigner = false then
      ⟨some .MissingRequiredSignature, buf.data⟩
    else if buf.data.length < AUTH_BUFF_HEADER_SIZE then
      ⟨some .AccountNotInitialized, buf.data⟩
    else
      match authHeaderDecode (buf.data.take AUTH_BUFF_HEADER_SIZE) with
      -- unreachable: the slice has exactly the header size after the length check
      | none => ⟨some .InvalidAccountData, buf.data⟩
      | some hdr =>
        match cpa [authoritySeed, authority.key,
            u64ToLeBytes hdr.buffer_seed, [hdr.bump_seed]] program_id with
        | .error e => ⟨some e, buf.data⟩
        | .ok pda =>
          if pda ≠ buf.key then ⟨some .InvalidAccountAddress, buf.data⟩
          else
            ⟨none, buf.data.take AUTH_BUFF_HEADER_SIZE
              ++ (List.range (buf.data.length - AUTH_BUFF_HEADER_SIZE)).map
                   (fun i => data.getD i 0)⟩
  | _ => ⟨some .NotEnoughAccountKeys, firstData accounts⟩

end AuthorizedEcho

/-- Fields of an SPL token account the handler reads. -/
structure TokenAccount where
  mint : Pubkey
  owner : Pubkey
  amount : Nat
deriving DecidableEq

/-- A 4-byte COption tag is 0 or 1 little-endian; anything else makes
the SPL unpack fail. -/
def coptionTagValid (bs : List Nat) : Bool :=
  bs = [0, 0, 0, 0] || bs = [1, 0, 0, 0]

/-- spl_token::state::Mint::unpack_unchecked (external dependency,
modelled at its interface): the input must be 82 bytes with valid
COption tags for mint_authority (offset 0) and freeze_authority
(offset 46) and a boolean is_initialized byte (offset 45); the decoded
mint itself is unused by the handler. -/
def mintUnpackUnchecked (bs : List Nat) : Except ProgramError Unit :=
  if bs.length = 82 ∧ coptionTagValid (bs.take 4) = true
      ∧ (bs.getD 45 0 = 0 ∨ bs.getD 45 0 = 1)
      ∧ coptionTagValid ((bs.drop 46).take 4) = true then
    .ok ()
  else .error .InvalidAccountData

/-- spl_token::state::Account::unpack_unchecked (external dependency,
modelled at its interface): the input must be 165 bytes laid out as
[mint: 32][owner: 32][amount: 8 LE][delegate COption: 36][state: 1]
[is_native COption: 12][delegated_amount: 8][close_authority COption:
36], with valid COption tags and a state byte of at most 2. -/
def tokenAccountUnpackUnchecked (bs : List Nat) :
    Except ProgramError TokenAccount :=
  if bs.length = 165 ∧ coptionTagValid ((bs.drop 72).take 4) = true
      ∧ bs.getD 108 0 ≤ 2
      ∧ coptionTagValid ((bs.drop 109).take 4) = true
      ∧ coptionTagValid ((bs.drop 129).take 4) = true then
    .ok ⟨bs.take 32, (bs.drop 32).take 32, leDecode ((bs.drop 64).take 8)⟩
  else .error .InvalidAccountData

/-- Outcome of VendingMachineEcho: the error if any, the final bytes of
the buffer account, and the amounts of the token burns issued. -/
structure VMResult where
  err : Option ProgramError
  buffer : List Nat
  burns : List Nat
deriving DecidableEq

namespace VendingMachineEcho

/-- processor/vending_machine_echo.rs process: parse (buffer writable,
user token account writable, user signer), unpack the mint and the
user token account, check token ownership and mint, require at least
the 9 header bytes, decode the header, check the balance against the
price, re-derive the address from ["vending_machine", mint key, price
LE, bump_seed] and compare it to the buffer key, burn the price, then
overwrite the whole payload region with data, zero-padded.  The burn
call is recorded and assumed to succeed (external collaborator). -/
def process (cpa : CreateProgramAddress) (program_id : Pubkey)
    (accounts : List AccountInfo) (data : List Nat) : VMResult :=
  match accounts with
  | buf :: user :: userTok :: mint :: _tokenProg :: _ =>
    if buf.isWritable = false then ⟨some .AccountMustBeWritable, buf.data, []⟩
    else if userTok.isWritable = false then
      ⟨some .AccountMustBeWritable, buf.data, []⟩
    else if user.isSigner = false then
      ⟨some .MissingRequiredSignature, buf.data, []⟩
    else
      match mintUnpackUnchecked mint.data with
      | .error e => ⟨some e, buf.data, []⟩
      | .ok _ =>
        match tokenAccountUnpackUnchecked userTok.data with
        | .error e => ⟨some e, buf.data, []⟩
        | .ok tok =>
          if tok.owner ≠ user.key then ⟨some .InvalidAccountData, buf.data, []⟩
          else if tok.mint ≠ mint.key then
            ⟨some .InvalidAccountData, buf.data, []⟩
          else if buf.data.length < VENDING_MACHINE_BUFF_HEADER_SIZE then
            ⟨some .AccountNotInitialized, buf.data, []⟩
          else
            match vmHeaderDecode (buf.data.take VENDING_MACHINE_BUFF_HEADER_SIZE) with
            -- unreachable: the slice has exactly the header size after the length check
            | none => ⟨some .InvalidAccountData, buf.data, []⟩
            | some hdr =>
              if tok.amount < hdr.price then
                ⟨some .InsufficientFunds, buf.data, []⟩
              else
                match cpa [vendingMachineSeed, mint.key,
                    u64ToLeBytes hdr.price, [hdr.bump_seed]] program_id with
                | .error e => ⟨some e, buf.data, []⟩
                | .ok pda =>
                  if pda ≠ buf.key then
                    ⟨some .InvalidAccountAddress, buf.data, []⟩
                  else
                    ⟨none, buf.data.take VENDING_MACHINE_BUFF_HEADER_SIZE
                      ++ (List.range
                            (buf.data.length - VENDING_MACHINE_BUFF_HEADER_SIZE)).map
                           (fun i => data.getD i 0),
                      [hdr.price]⟩
  | _ => ⟨some .NotEnoughAccountKeys, firstData accounts, []⟩

end VendingMachineEcho

/-- Outcome of InitializeVendingMachineEcho: the error if any, the final
bytes of the buffer account, and the sizes of the accounts created via
the system program. -/
structure InitResult where
  err : Option ProgramError
  buffer : List Nat
  creates : List Nat
deriving DecidableEq

namespace InitializeVendingMachineEcho

/-- processor/initialize_vending_machine_echo.rs process: parse (buffer
writable, payer signer, system program identity), require buffer_size
strictly greater than the header size, unpack the mint, find the
canonical address for ["vending_machine", mint key, price LE] and
compare it to the buffer key, create the account (buffer_size zeroed
bytes, recorded and assumed to succeed), then write the encoded header
over the first 9 bytes. -/
def process (fpa : FindProgramAddress) (program_id : Pubkey)
    (accounts : List AccountInfo) (price : Nat) (buffer_size : Nat) :
    InitResult :=
  match accounts with
  | buf :: mint :: payer :: sysProg :: _ =>
    if buf.isWritable = false then ⟨some .AccountMustBeWritable, buf.data, []⟩
    else if payer.isSigner = false then
      ⟨some .MissingRequiredSignature, buf.data, []⟩
    else if sysProg.key ≠ SYSTEM_PROGRAM_ID then
      ⟨some .InvalidProgramAddress, buf.data, []⟩
    else if buffer_size ≤ VENDING_MACHINE_BUFF_HEADER_SIZE then
      ⟨some .InvalidInstructionInput, buf.data, []⟩
    else
      match mintUnpackUnchecked mint.data with
      | .error e => ⟨some e, buf.data, []⟩
      | .ok _ =>
        let found := fpa [vendingMachineSeed, mint.key, u64ToLeBytes price]
          program_id
        if buf.key ≠ found.1 then ⟨some .InvalidAccountAddress, buf.data, []⟩
        else
          ⟨none, vmHeaderEncode ⟨found.2, price⟩
            ++ (List.replicate buffer_size 0).drop VENDING_MACHINE_BUFF_HEADER_SIZE,
            [buffer_size]⟩
  | _ => ⟨some .NotEnoughAccountKeys, firstData accounts, []⟩

end InitializeVendingMachineEcho

/-! Concrete fixtures used to evaluate the handlers at specific
inputs. -/

/-- A concrete user key. -/
def kU : Pubkey := List.replicate 32 1

/-- A concrete mint key. -/
def kM : Pubkey := List.replicate 32 2

/-- A concrete buffer key. -/
def kB : Pubkey := List.replicate 32 3

/-- A concrete token account / token program key. -/
def kT : Pubkey := List.replicate 32 4

/-- A concrete key different from kB. -/
def kX : Pubkey := List.replicate 32 7

/-- A concrete program id. -/
def pidW : Pubkey := List.replicate 32 8

/-- 82 zero bytes: a mint account that unpacks successfully. -/
def mintData : List Nat := List.replicate 82 0

/-- A token account with the fixture mint and owner and the given
balance; unpacks successfully. -/
def tokData (amount : Nat) : List Nat :=
  List.replicate 32 2 ++ List.replicate 32 1
    ++ u64ToLeBytes amount ++ List.replicate 93 0

/-- The buffer account fixture: writable, not a signer. -/
def bufAcct (d : List Nat) : AccountInfo := ⟨kB, false, true, d⟩

/-- The user / authority / payer fixture: a signer. -/
def userAcct : AccountInfo := ⟨kU, true, false, []⟩

/-- The user token account fixture: writable, with the given balance. -/
def userTokAcct (amount : Nat) : AccountInfo := ⟨kT, false, true, tokData amount⟩

/-- The mint account fixture. -/
def mintAcct : AccountInfo := ⟨kM, false, false, mintData⟩

/-- The token program account fixture. -/
def tokProgAcct : AccountInfo := ⟨kT, false, false, []⟩

/-- The system program account fixture. -/
def sysAcct : AccountInfo := ⟨SYSTEM_PROGRAM_ID, false, false, []⟩

/-- A derivation that always returns the given address. -/
def cpaTo (k : Pubkey) : CreateProgramAddress := fun _ _ => .ok k

/-- A canonical-address search that always returns the given address
and bump. -/
def fpaTo (k : Pubkey) (bump : Nat) : FindProgramAddress := fun _ _ => (k, bump)

/-- Data of a priced buffer: bump, price LE, then n zero payload
bytes. -/
def vmBufData (bump price n : Nat) : List Nat :=
  bump :: u64ToLeBytes price ++ List.replicate n 0

/-- Data of an authority-gated buffer: seed LE, bump, then n zero
payload bytes. -/
def authBufData (seed bump n : Nat) : List Nat :=
  u64ToLeBytes seed ++ [bump] ++ List.replicate n 0









/-! Helper lemmas. -/

/-- Little-endian round trip for u64 values. -/
lemma leDecode_u64 (n : Nat) (h : n < 18446744073709551616) :
    leDecode (u64ToLeBytes n) = n := by
  simp only [leDecode, u64ToLeBytes, List.foldr_cons, List.foldr_nil]
  omega

/-- Taking the 9 header bytes of a write that starts with the 9 header
bytes of a list of length at least 9 recovers them. -/
lemma take_nine_append (d x : List Nat) (h : 9 ≤ d.length) :
    (d.take 9 ++ x).take 9 = d.take 9 := by
  have hl : (d.take 9).length = 9 := by
    simp [List.length_take]
    omega
  rw [List.take_append_eq_append_take, hl]
  simp [List.take_take]

/-- Decoding the encoded priced header recovers both fields when the
price fits in a u64; the bump byte is reproduced verbatim. -/
lemma vmHeaderDecode_encode (b p : Nat) (hp : p < 18446744073709551616) :
    vmHeaderDecode (vmHeaderEncode ⟨b, p⟩) = some ⟨b, p⟩ := by
  have hlen : (u64ToLeBytes p).length = 8 := by simp [u64ToLeBytes]
  simp [vmHeaderEncode, vmHeaderDecode, hlen, leDecode_u64 p hp]

/-! Claim theorems. -/

/-- C9: the unauthenticated Echo operation ignores the program identity
argument: two runs that differ only in the program id return the same
result and leave the buffer in the same state. -/
theorem c9_echo_program_id_independent (pid1 pid2 : Pubkey)
    (accounts : List AccountInfo) (data : List Nat) :
    Echo.process pid1 accounts data = Echo.process pid2 accounts data := rfl

/-- C4: on a writable buffer, unauthenticated Echo fails with
AccountNotInitialized when the buffer has length 0 and with
AccountHasNonZeroData when the buffer holds any non-zero byte, and in
both cases the buffer bytes are unchanged. -/
theorem c4_echo_failures (pid : Pubkey) (buf : AccountInfo)
    (rest : List AccountInfo) (data : List Nat)
    (hw : buf.isWritable = true) :
    (buf.data.length = 0 →
      Echo.process pid (buf :: rest) data
        = ⟨some .AccountNotInitialized, buf.data⟩)
    ∧ (buf.data.any (fun b => b ≠ 0) = true →
      Echo.process pid (buf :: rest) data
        = ⟨some .AccountHasNonZeroData, buf.data⟩) := by
  constructor
  · intro h0
    simp [Echo.process, hw, h0]
  · intro hnz
    have hne : ¬ buf.data.length = 0 := by
      intro h0
      rw [List.length_eq_zero] at h0
      simp [h0] at hnz
    have hnz2 : ∃ x ∈ buf.data, ¬ x = 0 := by simpa using hnz
    simp [Echo.process, hw, hne, hnz2]

/-- C4 witness: a length-0 buffer fails with AccountNotInitialized and
a buffer holding a non-zero byte fails with AccountHasNonZeroData,
both leaving the data unchanged. -/
theorem c4_echo_failures_witness :
    Echo.process pidW [bufAcct []] [1, 2]
      = ⟨some .AccountNotInitialized, []⟩
    ∧ Echo.process pidW [bufAcct [0, 5, 0]] [1, 2]
      = ⟨some .AccountHasNonZeroData, [0, 5, 0]⟩ :=
  ⟨(c4_echo_failures pidW (bufAcct []) [] [1, 2] (by decide)).1 (by decide),
   (c4_echo_failures pidW (bufAcct [0, 5, 0]) [] [1, 2] (by decide)).2 (by decide)⟩

/-- C5: on a writable all-zero buffer of positive length L,
unauthenticated Echo succeeds, the first min(L, D) bytes become the
first min(L, D) bytes of data, and the bytes past min(L, D) are the
untouched (zero) suffix of the original buffer. -/
theorem c5_echo_success_write (pid : Pubkey) (buf : AccountInfo)
    (rest : List AccountInfo) (data : List Nat)
    (hw : buf.isWritable = true) (hz : ∀ b ∈ buf.data, b = 0)
    (hlen : 0 < buf.data.length) :
    Echo.process pid (buf :: rest) data
      = ⟨none, data.take (min buf.data.length data.length)
          ++ buf.data.drop (min buf.data.length data.length)⟩ := by
  have hne : ¬ buf.data.length = 0 := by omega
  have hany : buf.data.any (fun b => b ≠ 0) = false := by
    simp only [List.any_eq_false, decide_eq_true_eq]
    intro b hb
    simp [hz b hb]
  simp [Echo.process, hw, hne, hany]
  exact hz

/-- C5 witness: a 5-byte zero buffer with 3 bytes of data takes the
data followed by the two untouched zero bytes. -/
theorem c5_echo_success_write_witness :
    Echo.process pidW [bufAcct [0, 0, 0, 0, 0]] [1, 2, 3]
      = ⟨none, [1, 2, 3].take (min 5 3) ++ [0, 0, 0, 0, 0].drop (min 5 3)⟩ :=
  c5_echo_success_write pidW (bufAcct [0, 0, 0, 0, 0]) [] [1, 2, 3]
    (by decide) (by decide) (by decide)

/-- C8: the VendingMachineBufferHeader codec round-trips: decoding the
9-byte encoding [bump_seed: 1 byte][price: 8 bytes LE] of any valid
header yields the header back; in particular, on any successful
initialization the first 9 buffer bytes decode back to the bump
returned by the canonical-address search and the requested price. -/
theorem c8_header_roundtrip :
    (∀ h : VendingMachineBufferHeader, h.bump_seed < 256 →
      h.price < 18446744073709551616 →
      vmHeaderDecode (vmHeaderEncode h) = some h)
    ∧ (∀ (fpa : FindProgramAddress) (pid : Pubkey)
        (buf mint payer sys : AccountInfo) (rest : List AccountInfo)
        (price buffer_size : Nat),
      price < 18446744073709551616 →
      (InitializeVendingMachineEcho.process fpa pid
        (buf :: mint :: payer :: sys :: rest) price buffer_size).err = none →
      vmHeaderDecode
        (((InitializeVendingMachineEcho.process fpa pid
          (buf :: mint :: payer :: sys :: rest) price buffer_size).buffer).take 9)
        = some ⟨(fpa [vendingMachineSeed, mint.key, u64ToLeBytes price] pid).2,
            price⟩) := by
  constructor
  · intro h _ hp
    exact vmHeaderDecode_encode h.bump_seed h.price hp
  · intro fpa pid buf mint payer sys rest price buffer_size hp hsucc
    revert hsucc
    simp only [InitializeVendingMachineEcho.process]
    repeat' split
    all_goals intro hsucc
    all_goals simp_all
    have hlen : (vmHeaderEncode ⟨(fpa [vendingMachineSeed, mint.key,
        u64ToLeBytes price] pid).2, price⟩).length = 9 := by
      simp [vmHeaderEncode, u64ToLeBytes]
    rw [show (9 : Nat) = (vmHeaderEncode ⟨(fpa [vendingMachineSeed, mint.key,
        u64ToLeBytes price] pid).2, price⟩).length from hlen.symm,
      List.take_left]
    exact vmHeaderDecode_encode _ price hp

/-- C8 witness: the header with bump 254 and price 7 round-trips, and a
successful initialization with price 7 leaves header bytes that decode
to bump 254 and price 7. -/
theorem c8_header_roundtrip_witness :
    vmHeaderDecode (vmHeaderEncode ⟨254, 7⟩) = some ⟨254, 7⟩
    ∧ vmHeaderDecode
        (((InitializeVendingMachineEcho.process (fpaTo kB 254) pidW
          [bufAcct [], mintAcct, userAcct, sysAcct] 7 13).buffer).take 9)
        = some ⟨(fpaTo kB 254 [vendingMachineSeed, mintAcct.key,
            u64ToLeBytes 7] pidW).2, 7⟩ :=
  ⟨c8_header_roundtrip.1 ⟨254, 7⟩ (by decide) (by decide),
   c8_header_roundtrip.2 (fpaTo kB 254) pidW (bufAcct []) mintAcct userAcct
     sysAcct [] 7 13 (by decide) (by decide)⟩

/-- C6: neither AuthorizedEcho nor VendingMachineEcho ever modifies the
first 9 bytes of the buffer account: on every call, successful or
failing, the header bytes after the call equal those before it. -/
theorem c6_header_preserved :
    (∀ (cpa : CreateProgramAddress) (pid : Pubkey)
        (accounts : List AccountInfo) (data : List Nat),
      ((AuthorizedEcho.process cpa pid accounts data).buffer).take 9
        = (firstData accounts).take 9)
    ∧ (∀ (cpa : CreateProgramAddress) (pid : Pubkey)
        (accounts : List AccountInfo) (data : List Nat),
      ((VendingMachineEcho.process cpa pid accounts data).buffer).take 9
        = (firstData accounts).take 9) := by
  constructor
  · intro cpa pid accounts data
    rcases accounts with _ | ⟨buf, _ | ⟨auth, rest⟩⟩
    · simp [AuthorizedEcho.process, firstData]
    · simp [AuthorizedEcho.process, firstData]
    · simp only [AuthorizedEcho.process, AUTH_BUFF_HEADER_SIZE]
      repeat' split
      all_goals simp_all [firstData]
  · intro cpa pid accounts data
    rcases accounts with _ | ⟨buf, _ | ⟨user, _ | ⟨ut, _ | ⟨mint, _ | ⟨tp, rest⟩⟩⟩⟩⟩
    · simp [VendingMachineEcho.process, firstData]
    · simp [VendingMachineEcho.process, firstData]
    · simp [VendingMachineEcho.process, firstData]
    · simp [VendingMachineEcho.process, firstData]
    · simp [VendingMachineEcho.process, firstData]
    · simp only [VendingMachineEcho.process, VENDING_MACHINE_BUFF_HEADER_SIZE]
      repeat' split
      all_goals simp_all [firstData]

/-- C7: in every modelled handler a failing validation check aborts the
call before any buffer mutation and before any external call: whenever
the result carries an error, the buffer bytes equal the input bytes
and no burn and no account creation was issued. -/
theorem c7_fail_fast :
    (∀ (pid : Pubkey) (accounts : List AccountInfo) (data : List Nat),
      (Echo.process pid accounts data).err = none
      ∨ (Echo.process pid accounts data).buffer = firstData accounts)
    ∧ (∀ (cpa : CreateProgramAddress) (pid : Pubkey)
        (accounts : List AccountInfo) (data : List Nat),
      (AuthorizedEcho.process cpa pid accounts data).err = none
      ∨ (AuthorizedEcho.process cpa pid accounts data).buffer
          = firstData accounts)
    ∧ (∀ (cpa : CreateProgramAddress) (pid : Pubkey)
        (accounts : List AccountInfo) (data : List Nat),
      (VendingMachineEcho.process cpa pid accounts data).err = none
      ∨ ((VendingMachineEcho.process cpa pid accounts data).buffer
          = firstData accounts
        ∧ (VendingMachineEcho.process cpa pid accounts data).burns = []))
    ∧ (∀ (fpa : FindProgramAddress) (pid : Pubkey)
        (accounts : List AccountInfo) (price buffer_size : Nat),
      (InitializeVendingMachineEcho.process fpa pid accounts
        price buffer_size).err = none
      ∨ ((InitializeVendingMachineEcho.process fpa pid accounts
          price buffer_size).buffer = firstData accounts
        ∧ (InitializeVendingMachineEcho.process fpa pid accounts
            price buffer_size).creates = [])) := by
  refine ⟨?_, ?_, ?_, ?_⟩
  · intro pid accounts data
    rcases accounts with _ | ⟨buf, rest⟩
    · simp [Echo.process, firstData]
    · simp only [Echo.process]
      repeat' split
      all_goals simp [firstData]
  · intro cpa pid accounts data
    rcases accounts with _ | ⟨buf, _ | ⟨auth, rest⟩⟩
    · simp [AuthorizedEcho.process, firstData]
    · simp [AuthorizedEcho.process, firstData]
    · simp only [AuthorizedEcho.process]
      repeat' split
      all_goals simp [firstData]
  · intro cpa pid accounts data
    rcases accounts with _ | ⟨buf, _ | ⟨user, _ | ⟨ut, _ | ⟨mint, _ | ⟨tp, rest⟩⟩⟩⟩⟩
    · simp [VendingMachineEcho.process, firstData]
    · simp [VendingMachineEcho.process, firstData]
    · simp [VendingMachineEcho.process, firstData]
    · simp [VendingMachineEcho.process, firstData]
    · simp [VendingMachineEcho.process, firstData]
    · simp only [VendingMachineEcho.process]
      repeat' split
      all_goals simp [firstData]
  · intro fpa pid accounts price buffer_size
    rcases accounts with _ | ⟨buf, _ | ⟨mint, _ | ⟨payer, _ | ⟨sys, rest⟩⟩⟩⟩
    · simp [InitializeVendingMachineEcho.process, firstData]
    · simp [InitializeVendingMachineEcho.process, firstData]
    · simp [InitializeVendingMachineEcho.process, firstData]
    · simp [InitializeVendingMachineEcho.process, firstData]
    · simp only [InitializeVendingMachineEcho.process]
      repeat' split
      all_goals simp [firstData]

/-- C2: every successful AuthorizedEcho or VendingMachineEcho call
leaves the payload region (offsets 9 and beyond) equal to data
zero-padded and truncated to the payload length, regardless of its
prior content. -/
theorem c2_payload_full_overwrite :
    (∀ (cpa : CreateProgramAddress) (pid : Pubkey) (buf auth : AccountInfo)
        (rest : List AccountInfo) (data : List Nat),
      (AuthorizedEcho.process cpa pid (buf :: auth :: rest) data).err = none →
      (AuthorizedEcho.process cpa pid (buf :: auth :: rest) data).buffer
        = buf.data.take 9
          ++ (List.range (buf.data.length - 9)).map (fun i => data.getD i 0))
    ∧ (∀ (cpa : CreateProgramAddress) (pid : Pubkey)
        (buf user ut mint tp : AccountInfo) (rest : List AccountInfo)
        (data : List Nat),
      (VendingMachineEcho.process cpa pid
        (buf :: user :: ut :: mint :: tp :: rest) data).err = none →
      (VendingMachineEcho.process cpa pid
        (buf :: user :: ut :: mint :: tp :: rest) data).buffer
        = buf.data.take 9
          ++ (List.range (buf.data.length - 9)).map (fun i => data.getD i 0)) := by
  constructor
  · intro cpa pid buf auth rest data h
    revert h
    simp only [AuthorizedEcho.process, AUTH_BUFF_HEADER_SIZE]
    repeat' split
    all_goals intro h
    all_goals simp_all
  · intro cpa pid buf user ut mint tp rest data h
    revert h
    simp only [VendingMachineEcho.process, VENDING_MACHINE_BUFF_HEADER_SIZE]
    repeat' split
    all_goals intro h
    all_goals simp_all

/-- C2 witness: a successful authorized echo and a successful vending
machine echo, each on a 13-byte buffer with 3 bytes of data, rewrite
the whole 4-byte payload region. -/
theorem c2_payload_full_overwrite_witness :
    ((AuthorizedEcho.process (cpaTo kB) pidW
        [bufAcct (authBufData 5 9 4), userAcct] [1, 2, 3]).err = none
      ∧ (AuthorizedEcho.process (cpaTo kB) pidW
          [bufAcct (authBufData 5 9 4), userAcct] [1, 2, 3]).buffer
        = (bufAcct (authBufData 5 9 4)).data.take 9
          ++ (List.range ((bufAcct (authBufData 5 9 4)).data.length - 9)).map
               (fun i => [1, 2, 3].getD i 0))
    ∧ ((VendingMachineEcho.process (cpaTo kB) pidW
        [bufAcct (vmBufData 9 7 4), userAcct, userTokAcct 100, mintAcct,
          tokProgAcct] [1, 2, 3]).err = none
      ∧ (VendingMachineEcho.process (cpaTo kB) pidW
          [bufAcct (vmBufData 9 7 4), userAcct, userTokAcct 100, mintAcct,
            tokProgAcct] [1, 2, 3]).buffer
        = (bufAcct (vmBufData 9 7 4)).data.take 9
          ++ (List.range ((bufAcct (vmBufData 9 7 4)).data.length - 9)).map
               (fun i => [1, 2, 3].getD i 0)) :=
  ⟨⟨by decide,
    c2_payload_full_overwrite.1 (cpaTo kB) pidW (bufAcct (authBufData 5 9 4))
      userAcct [] [1, 2, 3] (by decide)⟩,
   ⟨by decide,
    c2_payload_full_overwrite.2 (cpaTo kB) pidW (bufAcct (vmBufData 9 7 4))
      userAcct (userTokAcct 100) mintAcct tokProgAcct [] [1, 2, 3]
      (by decide)⟩⟩

/-- C3: a VendingMachineEcho call whose earlier context and decode
checks pass but whose user token balance is strictly below the stored
price fails with InsufficientFunds, issues no burn, and leaves the
buffer bytes unchanged. -/
theorem c3_insufficient_funds (cpa : CreateProgramAddress) (pid : Pubkey)
    (buf user ut mint tp : AccountInfo) (rest : List AccountInfo)
    (data : List Nat) (tok : TokenAccount) (hdr : VendingMachineBufferHeader)
    (hw : buf.isWritable = true) (hwt : ut.isWritable = true)
    (hs : user.isSigner = true)
    (hm : mintUnpackUnchecked mint.data = .ok ())
    (ht : tokenAccountUnpackUnchecked ut.data = .ok tok)
    (ho : tok.owner = user.key) (hmk : tok.mint = mint.key)
    (hlen : 9 ≤ buf.data.length)
    (hdec : vmHeaderDecode (buf.data.take 9) = some hdr)
    (hamt : tok.amount < hdr.price) :
    VendingMachineEcho.process cpa pid
      (buf :: user :: ut :: mint :: tp :: rest) data
      = ⟨some .InsufficientFunds, buf.data, []⟩ := by
  have hlt : ¬ buf.data.length < 9 := by omega
  simp [VendingMachineEcho.process, VENDING_MACHINE_BUFF_HEADER_SIZE, hw, hwt,
    hs, hm, ht, ho, hmk, hlt, hdec, hamt]

/-- C3 witness: price 100 against balance 50 fails with
InsufficientFunds, no burn, buffer unchanged. -/
theorem c3_insufficient_funds_witness :
    VendingMachineEcho.process (cpaTo kB) pidW
      [bufAcct (vmBufData 9 100 4), userAcct, userTokAcct 50, mintAcct,
        tokProgAcct] [1, 2, 3]
      = ⟨some .InsufficientFunds, vmBufData 9 100 4, []⟩ :=
  c3_insufficient_funds (cpaTo kB) pidW (bufAcct (vmBufData 9 100 4))
    userAcct (userTokAcct 50) mintAcct tokProgAcct [] [1, 2, 3]
    ⟨kM, kU, 50⟩ ⟨9, 100⟩ (by decide) (by decide) (by decide) rfl
    rfl (by decide) (by decide) (by decide) (by decide) (by decide)

/-- C10: VendingMachineEcho accepts a buffer whose length is exactly the
9 header bytes: with every other check passing, the call succeeds,
burns the full price, and writes no payload byte, leaving the buffer
bytes exactly as they were. -/
theorem c10_header_only_buffer_accepted (cpa : CreateProgramAddress)
    (pid : Pubkey) (buf user ut mint tp : AccountInfo)
    (rest : List AccountInfo) (data : List Nat) (tok : TokenAccount)
    (hdr : VendingMachineBufferHeader) (pda : Pubkey)
    (hw : buf.isWritable = true) (hwt : ut.isWritable = true)
    (hs : user.isSigner = true)
    (hm : mintUnpackUnchecked mint.data = .ok ())
    (ht : tokenAccountUnpackUnchecked ut.data = .ok tok)
    (ho : tok.owner = user.key) (hmk : tok.mint = mint.key)
    (hlen : buf.data.length = 9)
    (hdec : vmHeaderDecode (buf.data.take 9) = some hdr)
    (hamt : hdr.price ≤ tok.amount)
    (hcpa : cpa [vendingMachineSeed, mint.key, u64ToLeBytes hdr.price,
      [hdr.bump_seed]] pid = .ok pda)
    (hk : pda = buf.key) :
    VendingMachineEcho.process cpa pid
      (buf :: user :: ut :: mint :: tp :: rest) data
      = ⟨none, buf.data, [hdr.price]⟩ := by
  have hlt : ¬ buf.data.length < 9 := by omega
  have hge : ¬ tok.amount < hdr.price := by omega
  have htake : buf.data.take 9 = buf.data := by
    rw [← hlen]
    exact List.take_length buf.data
  rw [htake] at hdec
  simp [VendingMachineEcho.process, VENDING_MACHINE_BUFF_HEADER_SIZE, hw, hwt,
    hs, hm, ht, ho, hmk, hlt, hdec, hge, hcpa, hk, hlen, htake]

/-- C10 witness: a 9-byte buffer holding only the header with price 7
passes the size check, succeeds, burns 7 tokens, and leaves the buffer
bytes untouched. -/
theorem c10_header_only_buffer_accepted_witness :
    VendingMachineEcho.process (cpaTo kB) pidW
      [bufAcct (vmBufData 9 7 0), userAcct, userTokAcct 100, mintAcct,
        tokProgAcct] [1, 2, 3]
      = ⟨none, vmBufData 9 7 0, [7]⟩ :=
  c10_header_only_buffer_accepted (cpaTo kB) pidW (bufAcct (vmBufData 9 7 0))
    userAcct (userTokAcct 100) mintAcct tokProgAcct [] [1, 2, 3]
    ⟨kM, kU, 100⟩ ⟨9, 7⟩ kB (by decide) (by decide) (by decide) rfl
    rfl (by decide) (by decide) (by decide) (by decide) (by decide)
    rfl (by decide)

/-- C1: for both authenticated echo operations, with every other
precondition holding, the call fails with InvalidAccountAddress
exactly when the address re-derived from the program identity and the
seeds implied by the stored header differs from the buffer account
address, and succeeds on a byte-for-byte match. -/
theorem c1_derived_address_check :
    (∀ (cpa : CreateProgramAddress) (pid : Pubkey) (buf auth : AccountInfo)
        (rest : List AccountInfo) (data : List Nat)
        (hdr : AuthorizedBufferHeader) (pda : Pubkey),
      buf.isWritable = true → auth.isSigner = true →
      9 ≤ buf.data.length →
      authHeaderDecode (buf.data.take 9) = some hdr →
      cpa [authoritySeed, auth.key, u64ToLeBytes hdr.buffer_seed,
        [hdr.bump_seed]] pid = .ok pda →
      ((AuthorizedEcho.process cpa pid (buf :: auth :: rest) data).err
          = some .InvalidAccountAddress ↔ pda ≠ buf.key)
      ∧ (pda = buf.key →
        (AuthorizedEcho.process cpa pid (buf :: auth :: rest) data).err
          = none))
    ∧ (∀ (cpa : CreateProgramAddress) (pid : Pubkey)
        (buf user ut mint tp : AccountInfo) (rest : List AccountInfo)
        (data : List Nat) (tok : TokenAccount)
        (hdr : VendingMachineBufferHeader) (pda : Pubkey),
      buf.isWritable = true → ut.isWritable = true → user.isSigner = true →
      mintUnpackUnchecked mint.data = .ok () →
      tokenAccountUnpackUnchecked ut.data = .ok tok →
      tok.owner = user.key → tok.mint = mint.key →
      9 ≤ buf.data.length →
      vmHeaderDecode (buf.data.take 9) = some hdr →
      hdr.price ≤ tok.amount →
      cpa [vendingMachineSeed, mint.key, u64ToLeBytes hdr.price,
        [hdr.bump_seed]] pid = .ok pda →
      ((VendingMachineEcho.process cpa pid
          (buf :: user :: ut :: mint :: tp :: rest) data).err
          = some .InvalidAccountAddress ↔ pda ≠ buf.key)
      ∧ (pda = buf.key →
        (VendingMachineEcho.process cpa pid
          (buf :: user :: ut :: mint :: tp :: rest) data).err = none)) := by
  constructor
  · intro cpa pid buf auth rest data hdr pda hw hs hlen hdec hcpa
    have hlt : ¬ buf.data.length < 9 := by omega
    constructor
    · by_cases hk : pda = buf.key
      · simp [AuthorizedEcho.process, AUTH_BUFF_HEADER_SIZE, hw, hs, hlt,
          hdec, hcpa, hk]
      · simp [AuthorizedEcho.process, AUTH_BUFF_HEADER_SIZE, hw, hs, hlt,
          hdec, hcpa, hk]
    · intro hk
      simp [AuthorizedEcho.process, AUTH_BUFF_HEADER_SIZE, hw, hs, hlt,
        hdec, hcpa, hk]
  · intro cpa pid buf user ut mint tp rest data tok hdr pda hw hwt hs hm ht
      ho hmk hlen hdec hamt hcpa
    have hlt : ¬ buf.data.length < 9 := by omega
    have hge : ¬ tok.amount < hdr.price := by omega
    constructor
    · by_cases hk : pda = buf.key
      · simp [VendingMachineEcho.process, VENDING_MACHINE_BUFF_HEADER_SIZE,
          hw, hwt, hs, hm, ht, ho, hmk, hlt, hdec, hge, hcpa, hk]
      · simp [VendingMachineEcho.process, VENDING_MACHINE_BUFF_HEADER_SIZE,
          hw, hwt, hs, hm, ht, ho, hmk, hlt, hdec, hge, hcpa, hk]
    · intro hk
      simp [VendingMachineEcho.process, VENDING_MACHINE_BUFF_HEADER_SIZE,
        hw, hwt, hs, hm, ht, ho, hmk, hlt, hdec, hge, hcpa, hk]

/-- C1 witness: with all other checks passing, a derivation returning a
key other than the buffer key makes both operations fail with
InvalidAccountAddress, and a derivation returning the buffer key lets
both succeed. -/
theorem c1_derived_address_check_witness :
    ((AuthorizedEcho.process (cpaTo kX) pidW
        [bufAcct (authBufData 5 9 4), userAcct] [1, 2]).err
      = some .InvalidAccountAddress
    ∧ (AuthorizedEcho.process (cpaTo kB) pidW
        [bufAcct (authBufData 5 9 4), userAcct] [1, 2]).err = none)
    ∧ ((VendingMachineEcho.process (cpaTo kX) pidW
        [bufAcct (vmBufData 9 7 4), userAcct, userTokAcct 100, mintAcct,
          tokProgAcct] [1, 2]).err = some .InvalidAccountAddress
    ∧ (VendingMachineEcho.process (cpaTo kB) pidW
        [bufAcct (vmBufData 9 7 4), userAcct, userTokAcct 100, mintAcct,
          tokProgAcct] [1, 2]).err = none) :=
  ⟨⟨(c1_derived_address_check.1 (cpaTo kX) pidW (bufAcct (authBufData 5 9 4))
      userAcct [] [1, 2] ⟨5, 9⟩ kX (by decide) (by decide) (by decide)
      (by decide) rfl).1.mpr (by decide),
    (c1_derived_address_check.1 (cpaTo kB) pidW (bufAcct (authBufData 5 9 4))
      userAcct [] [1, 2] ⟨5, 9⟩ kB (by decide) (by decide) (by decide)
      (by decide) rfl).2 (by decide)⟩,
   ⟨(c1_derived_address_check.2 (cpaTo kX) pidW (bufAcct (vmBufData 9 7 4))
      userAcct (userTokAcct 100) mintAcct tokProgAcct [] [1, 2]
      ⟨kM, kU, 100⟩ ⟨9, 7⟩ kX (by decide) (by decide) (by decide) rfl rfl
      (by decide) (by decide) (by decide) (by decide) (by decide)
      rfl).1.mpr (by decide),
    (c1_derived_address_check.2 (cpaTo kB) pidW (bufAcct (vmBufData 9 7 4))
      userAcct (userTokAcct 100) mintAcct tokProgAcct [] [1, 2]
      ⟨kM, kU, 100⟩ ⟨9, 7⟩ kB (by decide) (by decide) (by decide) rfl rfl
      (by decide) (by decide) (by decide) (by decide) (by decide)
      rfl).2 (by decide)⟩⟩

end EchoRef
